import Mathlib

/-!
Verification development for the Solver1927 Equihash-192,7 solver core
(src/solver1927).  The C++ sources are embedded shallowly:

* machine integers become Nat, with explicit masking where the C code can
  overflow (all byte values are Nats carried with a < 256 bound);
* a 32-byte hash or xor-result row becomes a List Nat of length 32;
* the BLAKE2b primitive lives outside src/solver1927 (in ../blake2); it is
  modelled as an absorbing state (the exact byte stream fed to it) plus an
  abstract digest oracle, so every statement about digests is universally
  quantified over the oracle;
* the collision pipeline (collision_detector.cpp) is embedded stage by
  stage, with bucket grouping realised as filtering over the 24-bit keys
  actually present (the C iterates all 2^24 bucket ids in ascending order;
  only non-empty buckets contribute output, so iterating the sorted,
  deduplicated list of present keys produces the identical output list);
* the one spot where the C leaves a value indeterminate (the two-argument
  CollisionPair constructor used on the out-of-range fallback path never
  initialises the genealogy union) is modelled by an explicit junk
  parameter that every theorem quantifies over.
-/

namespace Solver1927

/-- A row of hash data: 32 bytes, each byte a Nat kept below 256 by the
well-formedness predicates. -/
abbrev Value := List Nat

/-- Algorithm constant N = 192 from collision_detector.hpp. -/
def N : Nat := 192

/-- Algorithm constant K = 7 from collision_detector.hpp. -/
def K : Nat := 7

/-- STAGES = K + 1 = 8 from collision_detector.hpp. -/
def STAGES : Nat := 8

/-- COLLISION_BITS = 24 from collision_detector.hpp. -/
def COLLISION_BITS : Nat := 24

/-- BUCKET_COUNT = 2^24 from collision_detector.hpp. -/
def BUCKET_COUNT : Nat := 1 <<< COLLISION_BITS

/-- INITIAL_HASHES = 16 * 1024 * 1024 from memory_pool.hpp. -/
def INITIAL_HASHES : Nat := 16 * 1024 * 1024

/-! ## Blake2b parameter block and hasher (blake2b_hasher.cpp)

The blake2b_param struct itself comes from ../blake2/blake2.h (outside
src/solver1927); it is the standard BLAKE2b parameter block, embedded here
with the fields setup_blake2b_params assigns plus the salt, all
zero-initialised by the memset in the source. -/

structure Blake2bParam where
  digest_length : Nat
  key_length : Nat
  fanout : Nat
  depth : Nat
  leaf_length : Nat
  node_offset : Nat
  node_depth : Nat
  inner_length : Nat
  salt : List Nat
  personal : List Nat
deriving DecidableEq, Repr

/-- The 8 ASCII bytes of the EQUIHASH_PERSONALIZATION string "ZERO_PoW"
(blake2b_hasher.hpp). -/
def EQUIHASH_PERSONALIZATION : List Nat := [0x5A, 0x45, 0x52, 0x4F, 0x5F, 0x50, 0x6F, 0x57]

/-- Blake2bHasher::setup_blake2b_params: memset to zero, then assign
digest length 32, key length 0, fanout 1, depth 1, leaf length 0,
node offset 0, node depth 0, inner length 0, and the 16-byte
personalization "ZERO_PoW" followed by the little-endian bytes of n and k
(the C writes (n >> 8*j) & 0xff into personal[8+j], and similarly for k). -/
def setup_blake2b_params (n k : Nat) : Blake2bParam where
  digest_length := 32
  key_length := 0
  fanout := 1
  depth := 1
  leaf_length := 0
  node_offset := 0
  node_depth := 0
  inner_length := 0
  salt := List.replicate 16 0
  personal := EQUIHASH_PERSONALIZATION ++
    [n &&& 0xff, (n >>> 8) &&& 0xff, (n >>> 16) &&& 0xff, (n >>> 24) &&& 0xff,
     k &&& 0xff, (k >>> 8) &&& 0xff, (k >>> 16) &&& 0xff, (k >>> 24) &&& 0xff]

/-- Modelled from the spec: the BLAKE2b streaming state (blake2b_state and
blake2b_init_param / blake2b_update live in ../blake2, outside
src/solver1927).  The state records the parameter block it was initialised
with and the exact byte stream absorbed so far; blake2b_update appends
bytes, which is precisely the observable interface the solver uses. -/
structure Blake2bState where
  param : Blake2bParam
  absorbed : List Nat
deriving DecidableEq, Repr

/-- Modelled from the spec: blake2b_init_param starts an empty absorbing
state over the given parameter block. -/
def blake2b_init_param (p : Blake2bParam) : Blake2bState := ⟨p, []⟩

/-- Modelled from the spec: blake2b_update feeds bytes to the state. -/
def blake2b_update (st : Blake2bState) (data : List Nat) : Blake2bState :=
  ⟨st.param, st.absorbed ++ data⟩

/-- An abstract BLAKE2b compression oracle: from a parameter block and the
absorbed byte stream to the 32-byte digest.  Theorems quantify over it,
since the compression function is outside src/solver1927. -/
abbrev Digest := Blake2bParam → List Nat → Value

/-- Modelled from the spec: blake2b_final produces the digest of the bytes
absorbed so far, under the state's parameter block. -/
def blake2b_final (digest : Digest) (st : Blake2bState) : Value :=
  digest st.param st.absorbed

/-- Blake2bHasher::write_index_to_buffer: the 4 little-endian bytes of a
32-bit index. -/
def write_index_to_buffer (index : Nat) : List Nat :=
  [index &&& 0xff, (index >>> 8) &&& 0xff, (index >>> 16) &&& 0xff, (index >>> 24) &&& 0xff]

/-- Blake2bHasher::initialize: blake2b_init_param on the Equihash
parameter block; the external call can fail, which the Bool argument
initOk abstracts (the source checks its return code). -/
def hasher_initialize (initOk : Bool) (n k : Nat) : Option Blake2bState :=
  if initOk then some (blake2b_init_param (setup_blake2b_params n k)) else none

/-- Blake2bHasher::set_header_nonce: requires an initialized hasher, then
rebuilds the base state with explicit N=192, K=7 parameters and absorbs
header followed by nonce. -/
def set_header_nonce (is_initialized : Bool) (header nonce : List Nat) : Option Blake2bState :=
  if is_initialized then
    some (blake2b_update (blake2b_update (blake2b_init_param (setup_blake2b_params 192 7)) header) nonce)
  else none

/-- Blake2bManager::initialize_for_solve: initialize the hasher for
N=192, K=7, then set the header and nonce. -/
def initialize_for_solve (initOk : Bool) (header nonce : List Nat) : Option Blake2bState :=
  match hasher_initialize initOk 192 7 with
  | none => none
  | some _ => set_header_nonce true header nonce

/-- Blake2bHasher::generate_hash on an initialized hasher: copy the base
state, absorb the 4 little-endian index bytes, finalize. -/
def generate_hash (digest : Digest) (base : Blake2bState) (index : Nat) : Value :=
  blake2b_final digest (blake2b_update base (write_index_to_buffer index))

/-- The byte stream fed to BLAKE2b for index i after set_header_nonce with
the given header and nonce. -/
def blake2b_input_bytes (header nonce : List Nat) (index : Nat) : List Nat :=
  (blake2b_update (blake2b_update (blake2b_init_param (setup_blake2b_params 192 7)) header) nonce).absorbed
    ++ write_index_to_buffer index

/-- Spec-side little-endian 4-byte encoding LE32 of an unsigned integer. -/
def le32 (x : Nat) : List Nat :=
  [x % 256, x / 256 % 256, x / 65536 % 256, x / 16777216 % 256]

/-- The base state after initialize_for_solve succeeds: parameter block
for N=192, K=7, absorbed bytes header followed by nonce. -/
def solveBase (header nonce : List Nat) : Blake2bState :=
  blake2b_update (blake2b_update (blake2b_init_param (setup_blake2b_params 192 7)) header) nonce

/-! ## Collision detector data model (collision_detector.hpp) -/

/-- The genealogy union of CollisionPair: early stages (0-3) store the two
parent collision indices, late stages (4-7) store the ancestor array
together with its count (modelled as a list whose length is the count). -/
inductive Genealogy where
  | early (parent_a_idx parent_b_idx : Nat)
  | late (ancestors : List Nat)
deriving DecidableEq, Repr

/-- CollisionPair from collision_detector.hpp: the two member indices, the
32-byte XOR of the two parent values, the genealogy union and the stage
the pair was found at. -/
structure CollisionPair where
  index_a : Nat
  index_b : Nat
  xor_result : Value
  genealogy : Genealogy
  stage_level : Nat
deriving DecidableEq, Repr

instance : Inhabited CollisionPair := ⟨⟨0, 0, [], .early 0 0, 0⟩⟩

/-- The three-argument CollisionPair constructor (stage-0 path): stages
0-3 store the parent indices, stages 4+ initialise ancestor_count to 0.
The xor_result is written separately by compute_xor_simd, see
mkBucketPair. -/
def mkCollisionPair3 (a b stage : Nat) : CollisionPair where
  index_a := a
  index_b := b
  xor_result := []
  genealogy := if stage ≤ 3 then .early a b else .late []
  stage_level := stage

/-- CollisionPair::build_full_genealogy: a stub in the source, it ignores
both parents and sets ancestor_count to 0. -/
def build_full_genealogy (_parent_a _parent_b : CollisionPair) : Genealogy :=
  .late []

/-- The five-argument CollisionPair constructor (stage 1+ path with parent
tracking): stages 0-3 store the parent indices, stages 4+ initialise
ancestor_count to 0 and call the build_full_genealogy stub. -/
def mkCollisionPair5 (a b stage : Nat) (parent_a parent_b : CollisionPair) : CollisionPair where
  index_a := a
  index_b := b
  xor_result := []
  genealogy := if stage ≤ 3 then .early a b else build_full_genealogy parent_a parent_b
  stage_level := stage

/-- CollisionPair::get_solution_size: 2^(stage+1) for stages 0-3, the late
ancestor count for stages 4+.  If stage_level exceeds 3 but the union was
written through the early view, the C reads an indeterminate count; within
detect_collisions that situation never arises (proved below), so the value
0 chosen here is immaterial. -/
def get_solution_size (p : CollisionPair) : Nat :=
  if p.stage_level ≤ 3 then 2 ^ (p.stage_level + 1)
  else match p.genealogy with
    | .late l => l.length
    | .early _ _ => 0

/-- CollisionPair::is_complete_solution: final stage K with exactly 2^K
indices. -/
def is_complete_solution (p : CollisionPair) : Bool :=
  p.stage_level == K && get_solution_size p == 2 ^ K

/-- BucketEntry from collision_detector.hpp: the index of a row in the
current input buffer plus (the bytes behind) its hash pointer. -/
structure BucketEntry where
  hash_index : Nat
  hash_value : Value
deriving DecidableEq, Repr

/-- CollisionDetector::extract_collision_bits: pack 4 bytes starting at
byte 3*stage big-endian into a uint32, shift right to align the 24-bit
window and mask.  The uint32 arithmetic is made explicit by the mod 2^32. -/
def extract_collision_bits (hash : Value) (stage : Nat) : Nat :=
  let start_bit := stage * COLLISION_BITS
  let start_byte := start_bit / 8
  let bit_offset := start_bit % 8
  if start_byte + 3 < 32 then
    (((((hash.getD start_byte 0) <<< 24) |||
       ((hash.getD (start_byte + 1) 0) <<< 16) |||
       ((hash.getD (start_byte + 2) 0) <<< 8) |||
       (hash.getD (start_byte + 3) 0)) % 2 ^ 32) >>> (8 - bit_offset)) &&& (1 <<< COLLISION_BITS - 1)
  else 0

/-- CollisionDetector::xor_scalar: byte-wise XOR of two 32-byte rows (the
SSE2/AVX2/AVX512 variants compute the same function). -/
def xor_scalar (a b : Value) : Value :=
  List.zipWith (fun x y => x ^^^ y) a b

/-- One accepted candidate pair of process_bucket_collisions: stage 0 uses
the three-argument constructor on the raw indices; stages 1+ use the
five-argument constructor when both entry indices are in range of the
previous stage's collision vector, and otherwise fall back to the
two-argument constructor, which leaves the genealogy union uninitialised
in the source - the junk argument stands for that indeterminate content.
Afterwards compute_xor_simd writes the XOR of the two hash values. -/
def bucketPairBase (junk : Genealogy) (stage_num : Nat) (prev : List CollisionPair)
    (ea eb : BucketEntry) : CollisionPair :=
  if stage_num = 0 then
    mkCollisionPair3 ea.hash_index eb.hash_index stage_num
  else if ea.hash_index < prev.length ∧ eb.hash_index < prev.length then
    mkCollisionPair5 ea.hash_index eb.hash_index stage_num
      (prev.getD ea.hash_index default) (prev.getD eb.hash_index default)
  else
    { index_a := ea.hash_index, index_b := eb.hash_index, xor_result := [],
      genealogy := junk, stage_level := stage_num }

/-- The pair as stored: the constructed base with the XOR of the two hash
values written into xor_result by compute_xor_simd. -/
def mkBucketPair (junk : Genealogy) (stage_num : Nat) (prev : List CollisionPair)
    (ea eb : BucketEntry) : CollisionPair :=
  { bucketPairBase junk stage_num prev ea eb with
    xor_result := xor_scalar ea.hash_value eb.hash_value }

/-- All ordered pairs (i, j) with i before j of a list, in the iteration
order of the two nested loops of process_bucket_collisions. -/
def pairsOf {α : Type} : List α → List (α × α)
  | [] => []
  | x :: xs => (xs.map (fun y => (x, y))) ++ pairsOf xs

/-- CollisionDetector::process_bucket_collisions: every pair within the
bucket is accepted (collision_found is hard-wired to true in the source;
there is no verification beyond the shared bucket id and no genealogy
disjointness check). -/
def process_bucket_collisions (junk : Genealogy) (bucket : List BucketEntry)
    (stage_num : Nat) (prev : List CollisionPair) : List CollisionPair :=
  (pairsOf bucket).map (fun ab => mkBucketPair junk stage_num prev ab.1 ab.2)

/-- The entries CollisionDetector::populate_buckets places into bucket
key: the rows (in index order) whose extracted collision bits equal key.
Rows whose extracted bits reach BUCKET_COUNT are skipped by the source;
keys at least BUCKET_COUNT are filtered out in used_bucket_ids below. -/
def bucket_entries (entries : List (Nat × Value)) (stage key : Nat) : List BucketEntry :=
  (entries.filter (fun e => extract_collision_bits e.2 stage == key)).map
    (fun e => ⟨e.1, e.2⟩)

/-- Insert a key into an ascending list, keeping it ascending (used to
realise the ascending bucket-id iteration order executably). -/
def insertAsc (x : Nat) : List Nat → List Nat
  | [] => [x]
  | y :: ys => if x ≤ y then x :: y :: ys else y :: insertAsc x ys

/-- Ascending insertion sort. -/
def sortAsc (l : List Nat) : List Nat := l.foldr insertAsc []

/-- The non-empty bucket ids in ascending order: find_stage_collisions
iterates all 2^24 bucket ids in ascending order, and only ids that
received at least one entry produce output, so iterating the sorted
deduplicated list of present keys yields the identical output. -/
def used_bucket_ids (entries : List (Nat × Value)) (stage : Nat) : List Nat :=
  sortAsc (((entries.map (fun e => extract_collision_bits e.2 stage)).filter
      (fun k => decide (k < BUCKET_COUNT))).dedup)

/-- CollisionDetector::find_stage_collisions: clear and repopulate the
buckets from the input rows, then process every bucket with at least two
entries, concatenating the collision pairs in bucket-id order. -/
def find_stage_collisions (junk : Genealogy) (input_data : List Value)
    (stage_num : Nat) (prev : List CollisionPair) : List CollisionPair :=
  let entries := input_data.enum
  (used_bucket_ids entries stage_num).flatMap (fun k =>
    let bucket := bucket_entries entries stage_num k
    if bucket.length < 2 then [] else process_bucket_collisions junk bucket stage_num prev)

/-- The stage loop of CollisionDetector::detect_collisions: run stages
while collisions are found, feeding each stage's xor_results (copied into
the ping-pong buffer) as the next stage's input and its collision vector
as the next stage's prev.  Returns the per-stage collision vectors; the
loop stops after an empty stage or after the final stage. -/
def goStages (junk : Genealogy) : Nat → List Value → Nat → List CollisionPair →
    List (List CollisionPair)
  | 0, _, _, _ => []
  | n + 1, inputs, stage, prev =>
    let out := find_stage_collisions junk inputs stage prev
    if out.isEmpty then [out]
    else if n = 0 then [out]
    else out :: goStages junk n (out.map (fun p => p.xor_result)) (stage + 1) out

/-- The per-stage collision vectors computed by detect_collisions on the
given initial hashes (empty when the input-parameter guard rejects a zero
hash count). -/
def detectStages (junk : Genealogy) (hashes : List Value) : List (List CollisionPair) :=
  if hashes.isEmpty then [] else goStages junk STAGES hashes 0 []

/-- The indices extract_solution hands to the callback.  The source reads
final_collision.ancestor_indices, a member that does not exist on
CollisionPair (the translation unit cannot compile as written); the
nearest meaningful content, the late-stage ancestor list, is used here.
No sorting, deduplication or XOR verification of any kind is performed. -/
def solutionPayload (p : CollisionPair) : List Nat :=
  match p.genealogy with
  | .late l => l
  | .early a b => [a, b]

/-- The solutions detect_collisions reports through the callback: the
final-stage pairs passing is_complete_solution (extract_solution re-checks
the same predicate and otherwise returns without calling back). -/
def reportedSolutions (junk : Genealogy) (hashes : List Value) : List (List Nat) :=
  (((detectStages junk hashes).getD 7 []).filter (fun p => is_complete_solution p)).map
    solutionPayload

/-- The Bool detect_collisions returns: true exactly when the final stage
was reached and found at least one collision pair. -/
def detect_collisions_result (junk : Genealogy) (hashes : List Value) : Bool :=
  (detectStages junk hashes).length == STAGES &&
    !((detectStages junk hashes).getD 7 []).isEmpty

/-- The raw Stage-0 ancestor multiset of a collision pair found at the
given stage (spec section 4.3, Genealogy): a stage-0 pair contributes its
two raw indices, a later pair with early genealogy concatenates the
ancestors of its two parents in the previous stage's collision vector, and
a pair with late genealogy holds its ancestor list directly. -/
def rawAncestors (hist : List (List CollisionPair)) : Nat → CollisionPair → List Nat
  | 0, p => [p.index_a, p.index_b]
  | s + 1, p =>
    match p.genealogy with
    | .early a b =>
      rawAncestors hist s ((hist.getD s []).getD a default) ++
        rawAncestors hist s ((hist.getD s []).getD b default)
    | .late l => l

/-! ## Solver driver (solver1927.cpp) -/

/-- The SIMD dispatch level selected at construction (simd_detector). -/
inductive SIMDLevel where
  | NONE
  | SSE2
  | AVX2
  | AVX512
deriving DecidableEq, Repr

/-- Blake2bHasher::generate_initial_hashes on an initialized hasher with a
valid pool: generate min(target_count, INITIAL_HASHES) hashes for indices
0, 1, ... and return them with the generated count (generate_hash cannot
fail once initialized). -/
def generate_initial_hashes (digest : Digest) (base : Blake2bState)
    (target_count : Nat) : List Value × Nat :=
  let max_hashes := min target_count INITIAL_HASHES
  ((List.range max_hashes).map (generate_hash digest base), max_hashes)

/-- Blake2bHasher::generate_batch_sse2 / _avx2 / _avx512: all three are
the same scalar fallback loop, generating hashes for start_index + i while
i < count and start_index + i < INITIAL_HASHES. -/
def generate_batch (digest : Digest) (base : Blake2bState)
    (start_index count : Nat) : List Value × Nat :=
  let m := min count (INITIAL_HASHES - start_index)
  ((List.range m).map (fun i => generate_hash digest base (start_index + i)), m)

/-- Blake2bManager::dispatch_hash_generation: route to the batch kernel
for any SIMD level, or to generate_initial_hashes for the fallback. -/
def dispatch_hash_generation (digest : Digest) (base : Blake2bState) (simd : SIMDLevel)
    (start_index count : Nat) : List Value × Nat :=
  match simd with
  | .AVX512 => generate_batch digest base start_index count
  | .AVX2 => generate_batch digest base start_index count
  | .SSE2 => generate_batch digest base start_index count
  | .NONE => generate_initial_hashes digest base count

/-- solver1927::test_blake2b_integration: initialize for the solve, check
the pool, generate 100 test hashes and require exactly 100 back.  Returns
the success flag together with the number of hashes generated. -/
def test_blake2b_integration (digest : Digest) (initOk poolValid : Bool)
    (simd : SIMDLevel) (header nonce : List Nat) : Bool × Nat :=
  match initialize_for_solve initOk header nonce with
  | none => (false, 0)
  | some base =>
    if !poolValid then (false, 0)
    else
      let r := dispatch_hash_generation digest base simd 0 100
      (r.2 == 100, r.2)

/-- The outcome of solver1927::run_collision_detection. -/
structure RunResult where
  found : Bool
  generated : Nat
  hashes : List Value
  solutions : List (List Nat)
deriving Repr

/-- solver1927::run_collision_detection: hash_count is fixed at 800000 in
the source; initialize BLAKE2b, generate the initial hash set, fail unless
exactly hash_count hashes came back, then run detect_collisions with the
solution callback. -/
def run_collision_detection (digest : Digest) (initOk : Bool) (junk : Genealogy)
    (simd : SIMDLevel) (header nonce : List Nat) : RunResult :=
  let hash_count := 800000
  match initialize_for_solve initOk header nonce with
  | none => ⟨false, 0, [], []⟩
  | some base =>
    let r := dispatch_hash_generation digest base simd 0 hash_count
    if r.2 ≠ hash_count then ⟨false, r.2, r.1, []⟩
    else ⟨detect_collisions_result junk r.1, r.2, r.1, reportedSolutions junk r.1⟩

/-- The callbacks a solve invokes, in order. -/
inductive SolveEvent where
  | solution (indices : List Nat)
  | hashDone
deriving DecidableEq, Repr

/-- The observable outcome of one solver1927::solve call: the callback
events in order, the hash-generation counts of the test phase and of the
collision-detection phase, and how often the cancellation predicate was
polled. -/
structure SolveTrace where
  events : List SolveEvent
  test_hash_calls : Nat
  stage0_hash_calls : Nat
  cancel_polls : Nat
deriving DecidableEq, Repr

/-- solver1927::solve: refuse without an initialized memory pool (but
still fire hashdonef), run the Blake2b integration test (on failure fire
hashdonef), otherwise run collision detection, report each extracted
solution through solutionf and finally fire hashdonef.  The cancelf
argument is accepted and never invoked anywhere in the source, hence
cancel_polls is 0 on every path. -/
def solve (digest : Digest) (junk : Genealogy) (simd : SIMDLevel)
    (memValid initOk : Bool) (header nonce : List Nat)
    (cancelf : Nat → Bool) : SolveTrace :=
  let _ := cancelf
  if !memValid then ⟨[.hashDone], 0, 0, 0⟩
  else
    let t := test_blake2b_integration digest initOk memValid simd header nonce
    if !t.1 then ⟨[.hashDone], t.2, 0, 0⟩
    else
      let r := run_collision_detection digest initOk junk simd header nonce
      ⟨r.solutions.map SolveEvent.solution ++ [.hashDone], t.2, r.generated, 0⟩

/-- Whether an event is an on_solution callback. -/
def isSolutionEvent (e : SolveEvent) : Bool :=
  match e with
  | .solution _ => true
  | .hashDone => false

/-- Whether an event is the on_hash_done callback. -/
def isHashDoneEvent (e : SolveEvent) : Bool :=
  match e with
  | .solution _ => false
  | .hashDone => true

/-- The on_solution events of a trace. -/
def solutionEvents (t : SolveTrace) : List SolveEvent :=
  t.events.filter isSolutionEvent

/-- The number of on_hash_done events of a trace. -/
def hashDoneCount (t : SolveTrace) : Nat :=
  (t.events.filter isHashDoneEvent).length

/-- The canonical Stage-0 hash list of a solve: index i maps to the digest
of header, nonce and the 4 little-endian index bytes under the Equihash
parameter block. -/
def stage0Hashes (digest : Digest) (header nonce : List Nat) : List Value :=
  (List.range 800000).map (fun i =>
    digest (setup_blake2b_params 192 7) (header ++ nonce ++ write_index_to_buffer i))

/-! ## Well-formedness predicates and helper lemmas -/

/-- A well-formed row: 32 bytes, each below 256. -/
def wfValue (v : Value) : Prop := v.length = 32 ∧ ∀ i, i < 32 → v.getD i 0 < 256

instance : DecidablePred wfValue := fun v => by
  unfold wfValue; infer_instance

/-- The first m bytes of a row are zero. -/
def zeroPrefix (m : Nat) (v : Value) : Prop := ∀ i, i < m → v.getD i 0 = 0

instance (m : Nat) : DecidablePred (zeroPrefix m) := fun v => by
  unfold zeroPrefix; infer_instance

/-! ## Concrete test vectors -/

/-- The all-zero 32-byte row. -/
def zeroRow : Value := List.replicate 32 0

/-- Two identical all-zero initial hashes. -/
def hashes2 : List Value := [zeroRow, zeroRow]

/-- Three identical all-zero initial hashes: the smallest input on which
the collision pipeline reaches the final stage (each stage finds exactly
the three pairs of its three identical rows). -/
def hashes3 : List Value := [zeroRow, zeroRow, zeroRow]

/-- A concrete content for the indeterminate fallback genealogy. -/
def junk0 : Genealogy := .late []

/-- A concrete digest oracle mapping every input to the all-zero row. -/
def digest0 : Digest := fun _ _ => zeroRow

/-- The cancellation predicate of spec seed test 3: true exactly on its
5th invocation. -/
def cancel5 : Nat → Bool := fun n => n == 5

/-- A concrete well-formed row with bytes 1..32. -/
def probeRow : Value := (List.range 32).map (fun i => i + 1)

/-- The first stage-1 collision pair of the pipeline on hashes3. -/
def pairStage1 : CollisionPair := ((detectStages junk0 hashes3).getD 1 []).getD 0 default

/-- The first stage-4 collision pair of the pipeline on hashes3. -/
def pairStage4 : CollisionPair := ((detectStages junk0 hashes3).getD 4 []).getD 0 default

/-- The unique stage-0 collision pair of the pipeline on hashes2. -/
def pairStage0 : CollisionPair := ((detectStages junk0 hashes2).getD 0 []).getD 0 default

/-! ## Bit-manipulation helper lemmas -/

/-- A shifted value ORed with a value fitting entirely under the shift is
their sum (the bit ranges are disjoint). -/
theorem shiftLeft_or_eq_add {a b k : Nat} (hb : b < 2 ^ k) :
    (a <<< k) ||| b = a * 2 ^ k + b := by
  apply Nat.eq_of_testBit_eq
  intro i
  rw [Nat.testBit_or, Nat.testBit_shiftLeft]
  rw [show a * 2 ^ k + b = 2 ^ k * a + b by ring]
  rw [Nat.testBit_mul_pow_two_add a hb i]
  by_cases h : i < k
  · simp [h, Nat.not_le.mpr h]
  · simp [h, Nat.not_lt.mp h, Nat.testBit_lt_two_pow (lt_of_lt_of_le hb (Nat.pow_le_pow_right (by norm_num) (Nat.not_lt.mp h)))]

theorem and_mask24 (x : Nat) : x &&& (1 <<< 24 - 1) = x % 2 ^ 24 := by
  have h : (1 : Nat) <<< 24 - 1 = 2 ^ 24 - 1 := by decide
  rw [h, Nat.and_pow_two_sub_one_eq_mod]

/-- List.getD of a zipWith, pointwise. -/
theorem getD_zipWith (f : Nat → Nat → Nat) :
    ∀ (a b : List Nat) (i : Nat), i < a.length → i < b.length →
      (List.zipWith f a b).getD i 0 = f (a.getD i 0) (b.getD i 0) := by
  intro a
  induction a with
  | nil => intro b i h _; simp at h
  | cons x xs ih =>
    intro b i h1 h2
    cases b with
    | nil => simp at h2
    | cons y ys =>
      cases i with
      | zero => simp [List.getD]
      | succ j =>
        simp only [List.zipWith_cons_cons, List.getD_cons_succ]
        exact ih ys j (by simpa using h1) (by simpa using h2)

/-- The uint32 packing of the four bytes at 3s..3s+3, for bytes below
256, is their big-endian value. -/
theorem pack4_eq (b0 b1 b2 b3 : Nat) (_h0 : b0 < 256) (h1 : b1 < 256)
    (h2 : b2 < 256) (h3 : b3 < 256) :
    (b0 <<< 24) ||| (b1 <<< 16) ||| (b2 <<< 8) ||| b3 =
      b0 * 16777216 + b1 * 65536 + b2 * 256 + b3 := by
  rw [Nat.or_assoc, Nat.or_assoc]
  rw [shiftLeft_or_eq_add (k := 8) (by omega)]
  rw [shiftLeft_or_eq_add (k := 16) (by omega)]
  rw [shiftLeft_or_eq_add (k := 24) (by omega)]
  omega

/-- extract_collision_bits, on a well-formed row at a stage at most 7,
equals the big-endian integer formed by bytes 3s, 3s+1, 3s+2. -/
theorem extract_collision_bits_eq (v : Value) (s : Nat) (hs : s ≤ 7)
    (hb : ∀ i, i < 32 → v.getD i 0 < 256) :
    extract_collision_bits v s =
      v.getD (3 * s) 0 * 65536 + v.getD (3 * s + 1) 0 * 256 + v.getD (3 * s + 2) 0 := by
  have hsb : s * COLLISION_BITS / 8 = 3 * s := by unfold COLLISION_BITS; omega
  have hbo : s * COLLISION_BITS % 8 = 0 := by unfold COLLISION_BITS; omega
  have hlt : 3 * s + 3 < 32 := by omega
  unfold extract_collision_bits
  simp only [hsb, hbo, if_pos hlt]
  have h0 := hb (3 * s) (by omega)
  have h1 := hb (3 * s + 1) (by omega)
  have h2 := hb (3 * s + 2) (by omega)
  have h3 := hb (3 * s + 3) (by omega)
  rw [pack4_eq _ _ _ _ h0 h1 h2 h3]
  rw [Nat.mod_eq_of_lt (by omega)]
  rw [show (8 : Nat) - 0 = 8 by omega, Nat.shiftRight_eq_div_pow]
  rw [show (1 : Nat) <<< COLLISION_BITS - 1 = 1 <<< 24 - 1 by rfl, and_mask24]
  have e : (v.getD (3 * s) 0 * 16777216 + v.getD (3 * s + 1) 0 * 65536 +
      v.getD (3 * s + 2) 0 * 256 + v.getD (3 * s + 3) 0) / 2 ^ 8 =
      v.getD (3 * s) 0 * 65536 + v.getD (3 * s + 1) 0 * 256 + v.getD (3 * s + 2) 0 := by
    omega
  rw [e, Nat.mod_eq_of_lt (by omega)]

/-- The 24-bit bucket key is always below BUCKET_COUNT = 2^24. -/
theorem extract_collision_bits_lt (v : Value) (s : Nat) :
    extract_collision_bits v s < BUCKET_COUNT := by
  unfold extract_collision_bits BUCKET_COUNT COLLISION_BITS
  dsimp only
  split
  · rw [and_mask24]
    exact Nat.lt_of_lt_of_le (Nat.mod_lt _ (by norm_num)) (by decide)
  · decide

/-- Both components of a pair produced by pairsOf belong to the list. -/
theorem pairsOf_mem {α : Type} {l : List α} {p : α × α} (hp : p ∈ pairsOf l) :
    p.1 ∈ l ∧ p.2 ∈ l := by
  induction l with
  | nil => simp [pairsOf] at hp
  | cons x xs ih =>
    rw [pairsOf, List.mem_append] at hp
    rcases hp with h | h
    · obtain ⟨y, hy, hyp⟩ := List.mem_map.mp h
      subst hyp
      exact ⟨List.mem_cons_self x xs, List.mem_cons_of_mem x hy⟩
    · obtain ⟨h1, h2⟩ := ih h
      exact ⟨List.mem_cons_of_mem x h1, List.mem_cons_of_mem x h2⟩

/-- Decomposition of membership in a stage's output: every produced pair
comes from two bucket entries backed by rows of the input buffer whose
24-bit keys at this stage agree. -/
theorem find_stage_mem {junk : Genealogy} {inputs : List Value} {s : Nat}
    {prev : List CollisionPair} {p : CollisionPair}
    (hp : p ∈ find_stage_collisions junk inputs s prev) :
    ∃ ea eb : BucketEntry, p = mkBucketPair junk s prev ea eb ∧
      ea.hash_index < inputs.length ∧ eb.hash_index < inputs.length ∧
      ea.hash_value ∈ inputs ∧ eb.hash_value ∈ inputs ∧
      extract_collision_bits ea.hash_value s = extract_collision_bits eb.hash_value s := by
  unfold find_stage_collisions at hp
  obtain ⟨k, _, hpk⟩ := List.mem_flatMap.mp hp
  by_cases hlen : (bucket_entries inputs.enum s k).length < 2
  · simp [hlen] at hpk
  · rw [if_neg hlen] at hpk
    unfold process_bucket_collisions at hpk
    obtain ⟨ab, hab, hppair⟩ := List.mem_map.mp hpk
    obtain ⟨ha, hb⟩ := pairsOf_mem hab
    have entry_facts : ∀ e ∈ bucket_entries inputs.enum s k,
        e.hash_index < inputs.length ∧ e.hash_value ∈ inputs ∧
        extract_collision_bits e.hash_value s = k := by
      intro e he
      unfold bucket_entries at he
      obtain ⟨iv, hiv, hive⟩ := List.mem_map.mp he
      obtain ⟨hmem, hkey⟩ := List.mem_filter.mp hiv
      obtain ⟨hilt, hival⟩ := List.mem_enum hmem
      subst hive
      refine ⟨hilt, ?_, by simpa using hkey⟩
      rw [hival]
      exact List.getElem_mem hilt
    obtain ⟨hia, hva, hka⟩ := entry_facts ab.1 ha
    obtain ⟨hib, hvb, hkb⟩ := entry_facts ab.2 hb
    exact ⟨ab.1, ab.2, hppair.symm, hia, hib, hva, hvb, hka.trans hkb.symm⟩

/-- The xor_result of a produced pair is the byte-wise XOR of the two
entry values. -/
theorem mkBucketPair_xor (junk : Genealogy) (s : Nat) (prev : List CollisionPair)
    (ea eb : BucketEntry) :
    (mkBucketPair junk s prev ea eb).xor_result = xor_scalar ea.hash_value eb.hash_value := rfl

/-- The stage_level of a produced pair is the stage it was produced at. -/
theorem mkBucketPair_stage (junk : Genealogy) (s : Nat) (prev : List CollisionPair)
    (ea eb : BucketEntry) :
    (mkBucketPair junk s prev ea eb).stage_level = s := by
  unfold mkBucketPair bucketPairBase mkCollisionPair3 mkCollisionPair5
  split
  · rfl
  · split <;> rfl

/-- A pair produced at stage 4 or later with both entry indices in range
of the previous stage carries the empty late-stage genealogy (the
build_full_genealogy stub). -/
theorem mkBucketPair_genealogy_late (junk : Genealogy) (s : Nat)
    (prev : List CollisionPair) (ea eb : BucketEntry) (h4 : 4 ≤ s)
    (ha : ea.hash_index < prev.length) (hb : eb.hash_index < prev.length) :
    (mkBucketPair junk s prev ea eb).genealogy = .late [] := by
  unfold mkBucketPair bucketPairBase mkCollisionPair5 build_full_genealogy
  rw [if_neg (by omega), if_pos ⟨ha, hb⟩]
  simp only []
  rw [if_neg (by omega)]

/-- Stage output invariant: when every input row is well-formed with its
first 3s bytes zero, every pair the stage produces has a well-formed
xor_result whose first 3(s+1) bytes are zero. -/
theorem find_stage_wf_zero {junk : Genealogy} {inputs : List Value} {s : Nat}
    {prev : List CollisionPair} (hs : s ≤ 7)
    (hin : ∀ v ∈ inputs, wfValue v ∧ zeroPrefix (3 * s) v) :
    ∀ p ∈ find_stage_collisions junk inputs s prev,
      wfValue p.xor_result ∧ zeroPrefix (3 * (s + 1)) p.xor_result := by
  intro p hp
  obtain ⟨ea, eb, hpe, _, _, hva, hvb, hkey⟩ := find_stage_mem hp
  obtain ⟨⟨hla, hba⟩, hza⟩ := hin _ hva
  obtain ⟨⟨hlb, hbb⟩, hzb⟩ := hin _ hvb
  subst hpe
  rw [mkBucketPair_xor]
  have hbytes : ea.hash_value.getD (3 * s) 0 = eb.hash_value.getD (3 * s) 0 ∧
      ea.hash_value.getD (3 * s + 1) 0 = eb.hash_value.getD (3 * s + 1) 0 ∧
      ea.hash_value.getD (3 * s + 2) 0 = eb.hash_value.getD (3 * s + 2) 0 := by
    rw [extract_collision_bits_eq _ _ hs hba, extract_collision_bits_eq _ _ hs hbb] at hkey
    have b1 := hba (3 * s) (by omega)
    have b2 := hba (3 * s + 1) (by omega)
    have b3 := hba (3 * s + 2) (by omega)
    have c1 := hbb (3 * s) (by omega)
    have c2 := hbb (3 * s + 1) (by omega)
    have c3 := hbb (3 * s + 2) (by omega)
    omega
  have hxlen : (xor_scalar ea.hash_value eb.hash_value).length = 32 := by
    unfold xor_scalar
    rw [List.length_zipWith, hla, hlb]
    rfl
  have hget : ∀ i, i < 32 → (xor_scalar ea.hash_value eb.hash_value).getD i 0 =
      ea.hash_value.getD i 0 ^^^ eb.hash_value.getD i 0 := by
    intro i hi
    exact getD_zipWith _ _ _ i (by omega) (by omega)
  refine ⟨⟨hxlen, ?_⟩, ?_⟩
  · intro i hi
    rw [hget i hi]
    have e1 : ea.hash_value.getD i 0 < 2 ^ 8 := hba i hi
    have e2 : eb.hash_value.getD i 0 < 2 ^ 8 := hbb i hi
    exact Nat.xor_lt_two_pow e1 e2
  · intro i hi
    have hi32 : i < 32 := by omega
    rw [hget i hi32]
    have hcase : i < 3 * s ∨ i = 3 * s ∨ i = 3 * s + 1 ∨ i = 3 * s + 2 := by omega
    rcases hcase with h | h | h | h
    · rw [hza i h, hzb i h]
      rfl
    · rw [h, hbytes.1, Nat.xor_self]
    · rw [h, hbytes.2.1, Nat.xor_self]
    · rw [h, hbytes.2.2, Nat.xor_self]

/-- Pipeline invariant: starting the stage loop at the given stage with
well-formed inputs whose first 3*stage bytes are zero, the pairs recorded
at offset idx of the output all have well-formed xor_results whose first
3*(stage+idx+1) bytes are zero. -/
theorem goStages_wf_zero (junk : Genealogy) :
    ∀ (n : Nat) (inputs : List Value) (stage : Nat) (prev : List CollisionPair)
      (idx : Nat) (p : CollisionPair),
      stage + n ≤ 8 →
      (∀ v ∈ inputs, wfValue v ∧ zeroPrefix (3 * stage) v) →
      p ∈ (goStages junk n inputs stage prev).getD idx [] →
      wfValue p.xor_result ∧ zeroPrefix (3 * (stage + idx + 1)) p.xor_result := by
  intro n
  induction n with
  | zero =>
    intro inputs stage prev idx p _ _ hp
    simp [goStages] at hp
  | succ m ih =>
    intro inputs stage prev idx p hle hin hp
    rw [goStages] at hp
    have hstage7 : stage ≤ 7 := by omega
    by_cases hemp : (find_stage_collisions junk inputs stage prev).isEmpty
    · rw [if_pos hemp] at hp
      rw [List.isEmpty_iff] at hemp
      cases idx with
      | zero => rw [hemp] at hp; simp at hp
      | succ j => simp [List.getD] at hp
    · rw [if_neg hemp] at hp
      by_cases hm : m = 0
      · rw [if_pos hm] at hp
        cases idx with
        | zero =>
          simp only [List.getD_cons_zero] at hp
          have := find_stage_wf_zero hstage7 hin p hp
          simpa using this
        | succ j => simp [List.getD] at hp
      · rw [if_neg hm] at hp
        cases idx with
        | zero =>
          simp only [List.getD_cons_zero] at hp
          have := find_stage_wf_zero hstage7 hin p hp
          simpa using this
        | succ j =>
          simp only [List.getD_cons_succ] at hp
          have hin2 : ∀ v ∈ (find_stage_collisions junk inputs stage prev).map
              (fun p => p.xor_result), wfValue v ∧ zeroPrefix (3 * (stage + 1)) v := by
            intro v hv
            obtain ⟨q, hq, hqe⟩ := List.mem_map.mp hv
            subst hqe
            exact find_stage_wf_zero hstage7 hin q hq
          have := ih _ (stage + 1) _ j p (by omega) hin2 hp
          have harith : stage + 1 + j + 1 = stage + (j + 1) + 1 := by omega
          rwa [harith] at this

/-- Structural invariant of the stage loop: the stage level of every
recorded pair equals its stage, and (because the next stage's input buffer
always has exactly as many rows as the previous stage's collision vector)
every pair at stage 4 or later carries the empty late-stage genealogy, for
every content of the indeterminate fallback junk. -/
theorem goStages_level_genealogy (junk : Genealogy) :
    ∀ (n : Nat) (inputs : List Value) (stage : Nat) (prev : List CollisionPair)
      (idx : Nat) (p : CollisionPair),
      (stage = 0 ∨ inputs.length ≤ prev.length) →
      p ∈ (goStages junk n inputs stage prev).getD idx [] →
      p.stage_level = stage + idx ∧ (4 ≤ stage + idx → p.genealogy = .late []) := by
  intro n
  induction n with
  | zero =>
    intro inputs stage prev idx p _ hp
    simp [goStages] at hp
  | succ m ih =>
    intro inputs stage prev idx p hlen hp
    rw [goStages] at hp
    have hout : ∀ q ∈ find_stage_collisions junk inputs stage prev,
        q.stage_level = stage ∧ (4 ≤ stage → q.genealogy = .late []) := by
      intro q hq
      obtain ⟨ea, eb, hqe, hia, hib, _, _, _⟩ := find_stage_mem hq
      subst hqe
      refine ⟨mkBucketPair_stage junk stage prev ea eb, fun h4 => ?_⟩
      rcases hlen with h0 | hll
      · omega
      · exact mkBucketPair_genealogy_late junk stage prev ea eb h4 (by omega) (by omega)
    by_cases hemp : (find_stage_collisions junk inputs stage prev).isEmpty
    · rw [if_pos hemp] at hp
      rw [List.isEmpty_iff] at hemp
      cases idx with
      | zero => rw [hemp] at hp; simp at hp
      | succ j => simp [List.getD] at hp
    · rw [if_neg hemp] at hp
      by_cases hm : m = 0
      · rw [if_pos hm] at hp
        cases idx with
        | zero =>
          simp only [List.getD_cons_zero] at hp
          have := hout p hp
          simpa using this
        | succ j => simp [List.getD] at hp
      · rw [if_neg hm] at hp
        cases idx with
        | zero =>
          simp only [List.getD_cons_zero] at hp
          have := hout p hp
          simpa using this
        | succ j =>
          simp only [List.getD_cons_succ] at hp
          have := ih _ (stage + 1) _ j p (Or.inr (by rw [List.length_map])) hp
          constructor
          · omega
          · intro h4
            exact this.2 (by omega)

/-- Every pair recorded by detect_collisions at offset s of the stage
vector fails is_complete_solution, whatever the initial hashes. -/
theorem detect_complete_false (junk : Genealogy) (hashes : List Value) (s : Nat)
    (p : CollisionPair) (hp : p ∈ (detectStages junk hashes).getD s []) :
    is_complete_solution p = false := by
  unfold detectStages at hp
  by_cases hns : hashes.isEmpty
  · rw [if_pos hns] at hp; simp [List.getD] at hp
  · rw [if_neg hns] at hp
    have hprops := goStages_level_genealogy junk STAGES hashes 0 [] s p (Or.inl rfl) hp
    unfold is_complete_solution get_solution_size K
    rw [hprops.1]
    by_cases h7 : s = 7
    · subst h7
      rw [hprops.2 (by omega)]
      simp
    · simp only [Nat.zero_add]
      simp [h7]

/-- detect_collisions never reports a solution: the genealogy stub leaves
every final-stage pair with ancestor count 0, so the filter preceding
extract_solution matches nothing. -/
theorem reportedSolutions_nil (junk : Genealogy) (hashes : List Value) :
    reportedSolutions junk hashes = [] := by
  unfold reportedSolutions
  have hfilter : ((detectStages junk hashes).getD 7 []).filter
      (fun p => is_complete_solution p) = [] := by
    rw [List.filter_eq_nil_iff]
    intro p hp
    rw [detect_complete_false junk hashes 7 p hp]
    simp
  rw [hfilter]
  rfl

/-! ## Solve-level helper lemmas -/

theorem and_255 (x : Nat) : x &&& 0xff = x % 256 := by
  have h := Nat.and_pow_two_sub_one_eq_mod x 8
  norm_num at h
  exact h

theorem shr_and_255 (x k : Nat) : (x >>> k) &&& 0xff = x / 2 ^ k % 256 := by
  rw [Nat.shiftRight_eq_div_pow, and_255]

/-- write_index_to_buffer computes the spec-side LE32 encoding. -/
theorem write_index_eq_le32 (i : Nat) : write_index_to_buffer i = le32 i := by
  unfold write_index_to_buffer le32
  rw [and_255, shr_and_255, shr_and_255, shr_and_255]
  norm_num

/-- A successful initialize_for_solve yields the base state with the
Equihash parameter block and header and nonce absorbed. -/
theorem initialize_for_solve_true (header nonce : List Nat) :
    initialize_for_solve true header nonce = some (solveBase header nonce) := rfl

/-- The hash a solve generates for an index: the oracle digest of header,
nonce and index bytes under the Equihash parameter block. -/
theorem generate_hash_solveBase (digest : Digest) (header nonce : List Nat) (i : Nat) :
    generate_hash digest (solveBase header nonce) i =
      digest (setup_blake2b_params 192 7) (header ++ nonce ++ write_index_to_buffer i) := by
  simp [generate_hash, blake2b_final, blake2b_update, blake2b_init_param, solveBase]

/-- Every dispatch path generates exactly the hashes for indices 0..799999
when asked for the 800000 Stage-0 hashes. -/
theorem dispatch_800000 (digest : Digest) (base : Blake2bState) (simd : SIMDLevel) :
    dispatch_hash_generation digest base simd 0 800000 =
      ((List.range 800000).map (generate_hash digest base), 800000) := by
  have hmin : min 800000 INITIAL_HASHES = 800000 := by unfold INITIAL_HASHES; omega
  have hmin0 : min 800000 (INITIAL_HASHES - 0) = 800000 := by unfold INITIAL_HASHES; omega
  have hmap : (List.range 800000).map (fun i => generate_hash digest base (0 + i)) =
      (List.range 800000).map (generate_hash digest base) :=
    List.map_congr_left (fun i _ => by rw [Nat.zero_add])
  cases simd <;>
    (unfold dispatch_hash_generation generate_batch generate_initial_hashes; dsimp only)
  · rw [hmin]
  · rw [hmin0, hmap]
  · rw [hmin0, hmap]
  · rw [hmin0, hmap]

/-- Every dispatch path generates exactly 100 test hashes when asked. -/
theorem dispatch_100 (digest : Digest) (base : Blake2bState) (simd : SIMDLevel) :
    (dispatch_hash_generation digest base simd 0 100).2 = 100 := by
  have hmin : min 100 INITIAL_HASHES = 100 := by unfold INITIAL_HASHES; omega
  have hmin0 : min 100 (INITIAL_HASHES - 0) = 100 := by unfold INITIAL_HASHES; omega
  cases simd <;>
    (unfold dispatch_hash_generation generate_batch generate_initial_hashes; dsimp only)
  · exact hmin
  · exact hmin0
  · exact hmin0
  · exact hmin0

/-- run_collision_detection with a successful BLAKE2b initialization:
generates exactly the 800000 Stage-0 hashes and reports no solutions. -/
theorem run_cd_true (digest : Digest) (junk : Genealogy) (simd : SIMDLevel)
    (header nonce : List Nat) :
    run_collision_detection digest true junk simd header nonce =
      ⟨detect_collisions_result junk (stage0Hashes digest header nonce),
       800000, stage0Hashes digest header nonce, []⟩ := by
  have hlist : (List.range 800000).map (generate_hash digest (solveBase header nonce)) =
      stage0Hashes digest header nonce := by
    unfold stage0Hashes
    exact List.map_congr_left (fun i _ => generate_hash_solveBase digest header nonce i)
  unfold run_collision_detection
  rw [initialize_for_solve_true]
  dsimp only
  rw [dispatch_800000]
  dsimp only
  rw [if_neg (by omega), hlist, reportedSolutions_nil]

/-- test_blake2b_integration with a valid pool and successful BLAKE2b
initialization succeeds after generating exactly 100 test hashes. -/
theorem test_blake2b_true (digest : Digest) (simd : SIMDLevel) (header nonce : List Nat) :
    test_blake2b_integration digest true true simd header nonce = (true, 100) := by
  unfold test_blake2b_integration
  rw [initialize_for_solve_true]
  dsimp only
  rw [dispatch_100]
  rfl

/-- One solve with a valid memory pool and successful BLAKE2b
initialization: 100 test hashes, 800000 Stage-0 hashes, zero cancellation
polls and the single hash-done event. -/
theorem solve_true_trace (digest : Digest) (junk : Genealogy) (simd : SIMDLevel)
    (header nonce : List Nat) (cancelf : Nat → Bool) :
    solve digest junk simd true true header nonce cancelf =
      ⟨[.hashDone], 100, 800000, 0⟩ := by
  unfold solve
  rw [test_blake2b_true, run_cd_true]
  rfl

/-- Solution events never filter as hash-done events. -/
theorem filter_hashDone_map_solution (l : List (List Nat)) :
    (l.map SolveEvent.solution).filter isHashDoneEvent = [] := by
  induction l with
  | nil => rfl
  | cons x xs ih => simp [isHashDoneEvent, ih]

/-! ## Claim theorems -/

/-- C1: the claim says every solution reported via the solution callback
is 128 distinct ascending indices in [0, 2^21) whose hashes XOR to the
zero 192-bit string.  The code cannot deliver this guarantee: evaluated on
a concrete pool of three identical all-zero initial hashes the pipeline
reaches the final stage with three collision pairs and detect_collisions
returns true, yet the set of reported solutions is empty - the genealogy
stub leaves every final-stage pair failing is_complete_solution, so the
callback is never invoked at all (and the extraction path reads a
CollisionPair member, ancestor_indices, that does not exist). -/
theorem claim_C1_never_reports :
    (detectStages junk0 hashes3).length = 8 ∧
    ((detectStages junk0 hashes3).getD 7 []).length = 3 ∧
    detect_collisions_result junk0 hashes3 = true ∧
    reportedSolutions junk0 hashes3 = [] :=
  ⟨by decide, by decide, by decide, by decide⟩

/-- C2: detect_collisions never invokes the solution callback: every
collision pair recorded at a stage at least 4 has the empty late-stage
genealogy (build_full_genealogy is a no-op setting the ancestor count to
0), so its solution size is 0, not 128; is_complete_solution is false for
every recorded pair at every stage, and the reported-solution list is
empty for every input and every content of the indeterminate fallback
genealogy. -/
theorem claim_C2_no_callback :
    (∀ (junk : Genealogy) (hashes : List Value) (s : Nat) (p : CollisionPair),
        4 ≤ s → p ∈ (detectStages junk hashes).getD s [] →
        p.genealogy = .late [] ∧ get_solution_size p = 0 ∧ is_complete_solution p = false) ∧
    (∀ parent_a parent_b : CollisionPair, build_full_genealogy parent_a parent_b = .late []) ∧
    (∀ (junk : Genealogy) (hashes : List Value) (s : Nat) (p : CollisionPair),
        p ∈ (detectStages junk hashes).getD s [] → is_complete_solution p = false) ∧
    (∀ (junk : Genealogy) (hashes : List Value), reportedSolutions junk hashes = []) := by
  refine ⟨?_, fun _ _ => rfl,
    fun junk hashes s p hp => detect_complete_false junk hashes s p hp,
    fun junk hashes => reportedSolutions_nil junk hashes⟩
  intro junk hashes s p h4 hp
  unfold detectStages at hp
  by_cases hne : hashes.isEmpty
  · rw [if_pos hne] at hp
    simp at hp
  · rw [if_neg hne] at hp
    have h := goStages_level_genealogy junk STAGES hashes 0 [] s p (Or.inl rfl) hp
    have hg : p.genealogy = .late [] := h.2 (by omega)
    have hsize : get_solution_size p = 0 := by
      unfold get_solution_size
      rw [h.1, if_neg (by omega), hg]
      rfl
    refine ⟨hg, hsize, ?_⟩
    unfold is_complete_solution
    rw [hsize]
    simp [K]

set_option maxRecDepth 20000 in
/-- C2 witness: the first pair the pipeline records at stage 4 on three
identical all-zero hashes has empty genealogy, solution size 0 and fails
is_complete_solution. -/
theorem claim_C2_witness :
    (4 ≤ 4 ∧ pairStage4 ∈ (detectStages junk0 hashes3).getD 4 []) ∧
      (pairStage4.genealogy = .late [] ∧ get_solution_size pairStage4 = 0 ∧
        is_complete_solution pairStage4 = false) :=
  ⟨⟨by omega, by decide⟩,
    claim_C2_no_callback.1 junk0 hashes3 4 pairStage4 (by omega) (by decide)⟩

/-- C3 counterexample: the claim says the hasher produces exactly
2^21 = 2097152 initial digests per solve; the source generates 800000
(the hash_count literal in run_collision_detection), which is not 2^21. -/
theorem claim_C3_counterexample :
    (run_collision_detection digest0 true junk0 .NONE [] []).generated = 800000 ∧
    (run_collision_detection digest0 true junk0 .NONE [] []).generated ≠ 2 ^ 21 := by
  rw [run_cd_true]
  exact ⟨rfl, by decide⟩

/-- C3 amended: for each solve invocation (with successful BLAKE2b
initialization), the hasher produces exactly 800000 initial digests, one
digest H(i) for every index i in [0, 800000), where H(i) is the BLAKE2b
digest of header, nonce and LE32(i) under the Equihash parameter block. -/
theorem claim_C3_amended (digest : Digest) (junk : Genealogy) (simd : SIMDLevel)
    (header nonce : List Nat) :
    (run_collision_detection digest true junk simd header nonce).generated = 800000 ∧
    (run_collision_detection digest true junk simd header nonce).hashes =
      (List.range 800000).map (fun i =>
        digest (setup_blake2b_params 192 7) (header ++ nonce ++ le32 i)) := by
  have hmap : stage0Hashes digest header nonce =
      (List.range 800000).map (fun i =>
        digest (setup_blake2b_params 192 7) (header ++ nonce ++ le32 i)) := by
    unfold stage0Hashes
    apply List.map_congr_left
    intro i _
    rw [write_index_eq_le32]
  have h := run_cd_true digest junk simd header nonce
  refine ⟨?_, ?_⟩
  · rw [h]
  · rw [← hmap, h]

set_option maxRecDepth 20000 in
/-- C4: the claim says a candidate pair whose parents' ancestor sets
intersect is rejected.  Evaluated on three identical all-zero hashes, the
first stage-1 pair combines the stage-0 parents (0,1) and (0,2), which
share the raw index 0; the pair is nevertheless recorded (it is a member
of the stage-1 output), its ancestor multiset is [0, 1, 0, 2], and that
multiset has a duplicate. -/
theorem claim_C4_overlap_not_rejected :
    pairStage1 ∈ (detectStages junk0 hashes3).getD 1 [] ∧
    rawAncestors (detectStages junk0 hashes3) 1 pairStage1 = [0, 1, 0, 2] ∧
    ¬ (rawAncestors (detectStages junk0 hashes3) 1 pairStage1).Nodup :=
  ⟨by decide, by decide, by decide⟩

/-- C5: for every collision pair recorded at stage s of the pipeline run
on well-formed initial hashes, the first (s+1)*24 bits - that is, the
first 3*(s+1) bytes - of its xor_result are zero, and the xor_result is
again a well-formed 32-byte row. -/
theorem claim_C5_stage_leading_zeros (junk : Genealogy) (hashes : List Value) (s : Nat)
    (p : CollisionPair) (hwf : ∀ v ∈ hashes, wfValue v)
    (hp : p ∈ (detectStages junk hashes).getD s []) :
    zeroPrefix (3 * (s + 1)) p.xor_result ∧ wfValue p.xor_result := by
  unfold detectStages at hp
  by_cases hne : hashes.isEmpty
  · rw [if_pos hne] at hp
    simp at hp
  · rw [if_neg hne] at hp
    have hin : ∀ v ∈ hashes, wfValue v ∧ zeroPrefix (3 * 0) v :=
      fun v hv => ⟨hwf v hv, fun i hi => absurd hi (by omega)⟩
    have h := goStages_wf_zero junk STAGES hashes 0 [] s p (by unfold STAGES; omega) hin hp
    refine ⟨?_, h.1⟩
    have harith : 0 + s + 1 = s + 1 := by omega
    have h2 := h.2
    rwa [harith] at h2

/-- C5 witness: on two identical all-zero hashes the unique stage-0 pair
has its first 3 bytes of xor_result zero. -/
theorem claim_C5_witness :
    ((∀ v ∈ hashes2, wfValue v) ∧ pairStage0 ∈ (detectStages junk0 hashes2).getD 0 []) ∧
      (zeroPrefix (3 * (0 + 1)) pairStage0.xor_result ∧ wfValue pairStage0.xor_result) :=
  ⟨⟨by decide, by decide⟩,
    claim_C5_stage_leading_zeros junk0 hashes2 0 pairStage0 (by decide) (by decide)⟩

/-- C6: the claim says a cancellation returning true at some poll makes
the solve stop with at most 5 Stage-0 hashes processed.  With the
cancellation predicate wired to return true on its 5th invocation, the
solve never polls it (cancelf is never invoked anywhere in the source),
processes all 800000 Stage-0 hashes - far more than 5 - and, separately,
reports zero solutions (which it does on every input). -/
theorem claim_C6_cancellation_ignored :
    (solve digest0 junk0 .NONE true true [] [] cancel5).cancel_polls = 0 ∧
    (solve digest0 junk0 .NONE true true [] [] cancel5).stage0_hash_calls = 800000 ∧
    ¬ ((solve digest0 junk0 .NONE true true [] [] cancel5).stage0_hash_calls ≤ 5) ∧
    solutionEvents (solve digest0 junk0 .NONE true true [] [] cancel5) = [] := by
  rw [solve_true_trace]
  exact ⟨rfl, rfl, by decide, rfl⟩

/-- C7: for every n and k, the BLAKE2b parameter block built by
setup_blake2b_params has digest length 32, key length 0, fanout 1,
depth 1, leaf length 0, node offset 0, node depth 0, inner length 0, and
its 16-byte personalization is exactly the 8 ASCII bytes of "ZERO_PoW"
followed by LE32(n) and LE32(k). -/
theorem claim_C7_personalization (n k : Nat) :
    (setup_blake2b_params n k).digest_length = 32 ∧
    (setup_blake2b_params n k).key_length = 0 ∧
    (setup_blake2b_params n k).fanout = 1 ∧
    (setup_blake2b_params n k).depth = 1 ∧
    (setup_blake2b_params n k).leaf_length = 0 ∧
    (setup_blake2b_params n k).node_offset = 0 ∧
    (setup_blake2b_params n k).node_depth = 0 ∧
    (setup_blake2b_params n k).inner_length = 0 ∧
    (setup_blake2b_params n k).personal =
      ("ZERO_PoW".toList.map Char.toNat) ++ le32 n ++ le32 k := by
  refine ⟨rfl, rfl, rfl, rfl, rfl, rfl, rfl, rfl, ?_⟩
  have hz : "ZERO_PoW".toList.map Char.toNat = EQUIHASH_PERSONALIZATION := by decide
  show EQUIHASH_PERSONALIZATION ++ _ = _
  rw [hz, List.append_assoc]
  congr 1
  unfold le32
  simp only [shr_and_255]
  simp only [and_255]
  norm_num

/-- C8: for every header, nonce and index i, the byte sequence fed to
BLAKE2b for digest i is header, then nonce, then the little-endian 4-byte
encoding of i; in particular for header "abc", empty nonce and i = 1 the
input bytes are 61 62 63 01 00 00 00. -/
theorem claim_C8_input_bytes :
    (∀ (header nonce : List Nat) (i : Nat),
        blake2b_input_bytes header nonce i = header ++ nonce ++ le32 i) ∧
    blake2b_input_bytes [0x61, 0x62, 0x63] [] 1 = [0x61, 0x62, 0x63, 0x01, 0x00, 0x00, 0x00] := by
  constructor
  · intro header nonce i
    unfold blake2b_input_bytes blake2b_update blake2b_init_param
    rw [write_index_eq_le32]
    simp
  · decide

/-- C9: for every well-formed 32-byte value and every stage s at most 7,
the extracted 24-bit bucket key equals the big-endian integer formed by
bytes 3s, 3s+1 and 3s+2 (the 24-bit big-endian bit slice starting at bit
position 24s), and the key is below 2^24. -/
theorem claim_C9_bucket_key (v : Value) (s : Nat) (hs : s ≤ 7) (hwf : wfValue v) :
    extract_collision_bits v s =
        v.getD (3 * s) 0 * 65536 + v.getD (3 * s + 1) 0 * 256 + v.getD (3 * s + 2) 0 ∧
      extract_collision_bits v s < 2 ^ 24 := by
  refine ⟨extract_collision_bits_eq v s hs hwf.2, ?_⟩
  have h := extract_collision_bits_lt v s
  have hbc : BUCKET_COUNT = 2 ^ 24 := by decide
  rwa [hbc] at h

/-- C9 witness: on the row with bytes 1..32 at stage 1 the key is the
big-endian value of bytes 4, 5, 6 and is below 2^24. -/
theorem claim_C9_witness :
    (1 ≤ 7 ∧ wfValue probeRow) ∧
      (extract_collision_bits probeRow 1 =
          probeRow.getD (3 * 1) 0 * 65536 + probeRow.getD (3 * 1 + 1) 0 * 256 +
            probeRow.getD (3 * 1 + 2) 0 ∧
        extract_collision_bits probeRow 1 < 2 ^ 24) :=
  ⟨⟨by omega, by decide⟩, claim_C9_bucket_key probeRow 1 (by omega) (by decide)⟩

/-- A solve whose Blake2b integration test fails fires only hashdonef. -/
theorem solve_test_failed (digest : Digest) (junk : Genealogy) (simd : SIMDLevel)
    (initOk : Bool) (header nonce : List Nat) (cancelf : Nat → Bool)
    (h : (test_blake2b_integration digest initOk true simd header nonce).1 = false) :
    solve digest junk simd true initOk header nonce cancelf =
      ⟨[.hashDone], (test_blake2b_integration digest initOk true simd header nonce).2, 0, 0⟩ := by
  unfold solve
  dsimp only
  rw [h]
  rfl

/-- A solve whose Blake2b integration test succeeds maps the reported
solutions to solution events and appends the hash-done event. -/
theorem solve_test_ok (digest : Digest) (junk : Genealogy) (simd : SIMDLevel)
    (initOk : Bool) (header nonce : List Nat) (cancelf : Nat → Bool)
    (h : (test_blake2b_integration digest initOk true simd header nonce).1 = true) :
    solve digest junk simd true initOk header nonce cancelf =
      ⟨(run_collision_detection digest initOk junk simd header nonce).solutions.map
          SolveEvent.solution ++ [.hashDone],
       (test_blake2b_integration digest initOk true simd header nonce).2,
       (run_collision_detection digest initOk junk simd header nonce).generated, 0⟩ := by
  unfold solve
  dsimp only
  rw [h]
  rfl

/-- C10: for every digest oracle, SIMD level, memory-pool state, BLAKE2b
initialization outcome, header, nonce and cancellation predicate, one
solve invocation fires the on_hash_done callback exactly once, and it is
the last callback fired. -/
theorem claim_C10_hash_done_once (digest : Digest) (junk : Genealogy) (simd : SIMDLevel)
    (memValid initOk : Bool) (header nonce : List Nat) (cancelf : Nat → Bool) :
    hashDoneCount (solve digest junk simd memValid initOk header nonce cancelf) = 1 ∧
    (solve digest junk simd memValid initOk header nonce cancelf).events.getLast? =
      some .hashDone := by
  cases memValid with
  | false => exact ⟨rfl, rfl⟩
  | true =>
    cases htv : (test_blake2b_integration digest initOk true simd header nonce).1 with
    | false =>
      rw [solve_test_failed digest junk simd initOk header nonce cancelf htv]
      exact ⟨rfl, rfl⟩
    | true =>
      rw [solve_test_ok digest junk simd initOk header nonce cancelf htv]
      constructor
      · unfold hashDoneCount
        dsimp only
        rw [List.filter_append, filter_hashDone_map_solution]
        rfl
      · exact List.getLast?_concat _

end Solver1927
